import Mathlib

/-!
Verification development for the tofino browser shell.

The development shallowly embeds the per-window tab reducer
(`src/ui/browser/reducers/main-reducers.js`), the profile diff engine
(`src/app/main/browser.js`), and the bookmark action layer (modelled from the
spec, since only its unit test ships in the sources).  JavaScript values that
flow through the Immutable.js collections are modelled by the inductive type
`Val`; indices are modelled as `Int` because JavaScript numbers may be
negative or out of range, and the Immutable.js list operations wrap or clamp
them as documented on each embedded primitive.
-/

namespace Tofino

mutual

/-- JavaScript values stored in the Immutable collections, mutually with the
`Page` record (`new Page({...})` from `src/ui/browser/model`).  `undef` stands
both for JavaScript `undefined` and for an unset list slot; `obj` is a plain
`Immutable.Map` as created by `setIn` when an intermediate key is missing. -/
inductive Val where
  | undef : Val
  | str : String → Val
  | num : Int → Val
  | ofPage : Page → Val
  | obj : List (String × Val) → Val

/-- Modelled from the spec: the `Page` record of `src/ui/browser/model` is not
included in the sources.  Per the spec's data model it has attributes
`location` (URL string), `userTyped` (pending address-bar text), `sessionId`
(a session handle), "and other transient render metadata", which we keep
as an open association list. -/
inductive Page where
  | mk : Val → Val → Val → List (String × Val) → Page

end

end Tofino

namespace Tofino

def Page.location : Page → Val
  | Page.mk l _ _ _ => l

def Page.userTyped : Page → Val
  | Page.mk _ u _ _ => u

def Page.sessionId : Page → Val
  | Page.mk _ _ s _ => s

def Page.meta : Page → List (String × Val)
  | Page.mk _ _ _ m => m

/-- Embedding of `new Page({ location })`: every field other than `location` takes its
record default (undefined). -/
def Page.new (location : Val) : Page :=
  Page.mk location Val.undef Val.undef []

/-- Set a key in a plain association list (`Immutable.Map.set`): replace the
first binding of the key, or append a new binding. -/
def assocSet (m : List (String × Val)) (key : String) (value : Val) :
    List (String × Val) :=
  match m with
  | [] => [(key, value)]
  | (k, v) :: rest =>
      if k = key then (k, value) :: rest else (k, v) :: assocSet rest key value

/-- Embedding of `Record.set` on a `Page`: the three named fields are set directly, any
other key lands in the open metadata list. -/
def Page.setField (p : Page) (key : String) (value : Val) : Page :=
  match p with
  | Page.mk l u s m =>
      if key = "location" then Page.mk value u s m
      else if key = "userTyped" then Page.mk l value s m
      else if key = "sessionId" then Page.mk l u value m
      else Page.mk l u s (assocSet m key value)

/-- The `State` record of the tab reducer: `pages`, `pageOrder`,
`currentPageIndex` (`src/ui/browser/model`). -/
structure State where
  pages : List Val
  pageOrder : List Int
  currentPageIndex : Int

/-- Embedding of `Immutable.List.get(index)`: a negative index wraps from the end; a still
out-of-range index yields the not-set value `d`. -/
def jsGetD (l : List α) (i : Int) (d : α) : α :=
  let j := if i < 0 then i + l.length else i
  if 0 ≤ j then l.getD j.toNat d else d

/-- Embedding of `Immutable.List.delete(index)` = `splice(index, 1)`: a negative index
wraps from the end, a wrapped index below zero is clamped to zero, and an
index at or past the end leaves the list unchanged. -/
def jsDelete (l : List α) (i : Int) : List α :=
  let j := if i < 0 then i + l.length else i
  let k := if j < 0 then 0 else j
  l.eraseIdx k.toNat

/-- Embedding of `Immutable.List.indexOf(value)`: first index of the value, `-1` when the
value is absent. -/
def jsIndexOf (l : List Int) (a : Int) : Int :=
  let k := l.findIdx (fun x => x = a)
  if k < l.length then (k : Int) else -1

/-- One step of `setIn(['pages', i, key], value)` once the list entry at `i`
has been fetched: an unset slot grows a fresh `Immutable.Map`, a `Page` record
sets the field, a plain map sets the key, and any other intermediate value
makes Immutable.js throw `invalid keyPath`. -/
def updatePageEntry (existing : Val) (key : String) (value : Val) :
    Except String Val :=
  match existing with
  | Val.undef => Except.ok (Val.obj [(key, value)])
  | Val.ofPage p => Except.ok (Val.ofPage (p.setField key value))
  | Val.obj m => Except.ok (Val.obj (assocSet m key value))
  | _ => Except.error "invalid keyPath"

/-- Embedding of `state.setIn(['pages', i, key], value)` restricted to the pages list.
In range, the entry is updated in place.  Past the end, the list grows with
unset slots and a fresh map lands at index `i` (Immutable.js `updateList`
grow-at-back).  A wrapped index below zero grows the list at the front with
the fresh map at index 0 (`setListBounds` + `set(0, ...)`). -/
def jsSetInPages (pages : List Val) (i : Int) (key : String) (value : Val) :
    Except String (List Val) :=
  let j := if i < 0 then i + pages.length else i
  if 0 ≤ j then
    if j < pages.length then
      match updatePageEntry (pages.getD j.toNat Val.undef) key value with
      | Except.ok v => Except.ok (pages.set j.toNat v)
      | Except.error e => Except.error e
    else
      Except.ok (pages ++ List.replicate (j.toNat - pages.length) Val.undef
                   ++ [Val.obj [(key, value)]])
  else
    Except.ok (Val.obj [(key, value)] ::
      (List.replicate ((-j).toNat - 1) Val.undef ++ pages))

/-- The constant `HOME_PAGE = 'https://www.mozilla.org/'`. -/
def HOME_PAGE : String := "https://www.mozilla.org/"

/-- The reducer's `initialState`: one home page, order `[0]`, current `0`. -/
def initialState : State :=
  { pages := [Val.ofPage (Page.new (Val.str HOME_PAGE))]
    pageOrder := [0]
    currentPageIndex := 0 }

/-- Embedding of `createTab(state, location = HOME_PAGE)`: push a new page, select it, and
append its index (the old size) to the page order. -/
def createTab (state : State) (location : Option String) : State :=
  let loc := location.getD HOME_PAGE
  { pages := state.pages ++ [Val.ofPage (Page.new (Val.str loc))]
    currentPageIndex := (state.pages.length : Int)
    pageOrder := state.pageOrder ++ [(state.pages.length : Int)] }

/-- Embedding of `duplicateTab(state, pageIndex)`.  Note that the source reads the whole
`Page` record (`state.pages.get(pageIndex)`) and passes it as the `location`
of the new page. -/
def duplicateTab (state : State) (pageIndex : Int) : State :=
  let location := jsGetD state.pages pageIndex Val.undef
  { pages := state.pages ++ [Val.ofPage (Page.new location)]
    currentPageIndex := (state.pages.length : Int)
    pageOrder := state.pageOrder ++ [(state.pages.length : Int)] }

/-- Embedding of `attachTab(state, page)`: replace the whole state with a single-page
state built from the given page data. -/
def attachTab (_state : State) (page : Page) : State :=
  { pages := [Val.ofPage page]
    pageOrder := [0]
    currentPageIndex := 0 }

/-- Embedding of `closeTab(state, pageIndex)`, translated line by line from the source. -/
def closeTab (state : State) (pageIndex : Int) : State :=
  if state.pages.length = 1 then initialState
  else
    let currentPageIndex := state.currentPageIndex
    let pages := jsDelete state.pages pageIndex
    let orderIndex := jsIndexOf state.pageOrder pageIndex
    let pageOrder0 := jsDelete state.pageOrder orderIndex
    let pageOrder := pageOrder0.map (fun i => if i < pageIndex then i else i - 1)
    let newCurrent :=
      if currentPageIndex = pageIndex then
        if orderIndex > 0 then orderIndex - 1 else orderIndex
      else
        if currentPageIndex > pageIndex then currentPageIndex - 1
        else currentPageIndex
    { pages := pages, pageOrder := pageOrder, currentPageIndex := newCurrent }

/-- Embedding of `setLocation(state, userTyped)`:
`state.setIn(['pages', state.currentPageIndex, 'userTyped'], userTyped)`. -/
def setLocation (state : State) (userTyped : Val) : Except String State :=
  match jsSetInPages state.pages state.currentPageIndex "userTyped" userTyped with
  | Except.ok pages => Except.ok { state with pages := pages }
  | Except.error e => Except.error e

/-- Embedding of `setPageDetails(state, pageIndex, details)`: `-1` selects the current
page (resolved once, against the incoming state), then each key/value entry
of `details` is set into that page in order. -/
def setPageDetails (state : State) (pageIndex : Int)
    (details : List (String × Val)) : Except String State :=
  let idx := if pageIndex = -1 then state.currentPageIndex else pageIndex
  details.foldlM
    (fun st kv =>
      match jsSetInPages st.pages idx kv.1 kv.2 with
      | Except.ok pages => Except.ok { st with pages := pages }
      | Except.error e => Except.error e)
    state

/-- Embedding of `setCurrentTab(state, pageIndex)`: unconditional selection change. -/
def setCurrentTab (state : State) (pageIndex : Int) : State :=
  { state with currentPageIndex := pageIndex }

/-- Embedding of `setPageOrder(state, pageOrder)`: unconditional replacement. -/
def setPageOrder (state : State) (pageOrder : List Int) : State :=
  { state with pageOrder := pageOrder }

/-- The eight-action vocabulary of the tab reducer, plus `unknown` for any
action type outside the vocabulary (the reducer's `default` branch). -/
inductive Action where
  | createTab (location : Option String)
  | duplicateTab (pageIndex : Int)
  | attachTab (page : Page)
  | closeTab (pageIndex : Int)
  | setLocation (userTyped : Val)
  | setPageDetails (pageIndex : Int) (details : List (String × Val))
  | setCurrentTab (pageIndex : Int)
  | setPageOrder (pageOrder : List Int)
  | unknown (type : String)

/-- The exported reducer `basic(state, action)`.  A JavaScript exception from
the Immutable.js primitives surfaces as `Except.error`. -/
def basic (state : State) (action : Action) : Except String State :=
  match action with
  | Action.createTab location => Except.ok (createTab state location)
  | Action.duplicateTab pageIndex => Except.ok (duplicateTab state pageIndex)
  | Action.attachTab page => Except.ok (attachTab state page)
  | Action.closeTab pageIndex => Except.ok (closeTab state pageIndex)
  | Action.setLocation userTyped => setLocation state userTyped
  | Action.setPageDetails pageIndex details => setPageDetails state pageIndex details
  | Action.setCurrentTab pageIndex => Except.ok (setCurrentTab state pageIndex)
  | Action.setPageOrder pageOrder => Except.ok (setPageOrder state pageOrder)
  | Action.unknown _ => Except.ok state

/-! ## Profile state and the diff engine (`src/app/main/browser.js`) -/

/-- The process-wide profile state observed by `sendDiffsToWindows`:
`browserWindows` (set of window ids), `recentBookmarks` (ordered list),
`bookmarks` (set of URLs), `locations`.  The locations map is modelled by its
entry list; `Immutable.is` on these fields is modelled by equality of the
corresponding Lean values. -/
structure ProfileState where
  browserWindows : Finset Int
  recentBookmarks : List String
  bookmarks : Finset String
  locations : List (String × String)
deriving DecidableEq

/-- Modelled from the spec: the payloads built by `profile-diffs`
(`src/app/shared/profile-diffs.js` is not included in the sources) — a plain
key/value projection of the changed field: the bookmarks set, or the
locations/completions map. -/
inductive DiffPayload where
  | bookmarks : Finset String → DiffPayload
  | completions : List (String × String) → DiffPayload
deriving DecidableEq

/-- The observable effects of one run of `sendDiffsToWindows`, in program
order: showing/closing a window after its load promise, rebuilding the menu,
and broadcasting one `profile-diff` replication event to all windows. -/
inductive Effect where
  | showWindow : Int → Effect
  | closeWindow : Int → Effect
  | buildMenu : List String → Effect
  | profileDiff : DiffPayload → Effect
deriving DecidableEq

def Effect.isProfileDiff : Effect → Bool
  | Effect.profileDiff _ => true
  | _ => false

/-- Embedding of `sendDiffsToWindows()` as a pure function from the previous snapshot
(`none` on the first run) and the current state to the list of emitted
effects, in the order the source emits them.  Window-set iteration order is
modelled by sorting the ids. -/
def sendDiffsToWindows (previous : Option ProfileState)
    (current : ProfileState) : List Effect :=
  (match previous with
   | none => []
   | some prev =>
     if current.browserWindows = prev.browserWindows then []
     else
       ((current.browserWindows \ prev.browserWindows).sort (· ≤ ·)).map
           Effect.showWindow
         ++ ((prev.browserWindows \ current.browserWindows).sort (· ≤ ·)).map
           Effect.closeWindow)
  ++ (if previous.any
          (fun prev => decide (current.recentBookmarks = prev.recentBookmarks))
      then []
      else [Effect.buildMenu current.recentBookmarks])
  ++ (if previous.any (fun prev => decide (current.bookmarks = prev.bookmarks))
      then []
      else [Effect.profileDiff (DiffPayload.bookmarks current.bookmarks)])
  ++ (if previous.any (fun prev => decide (current.locations = prev.locations))
      then []
      else [Effect.profileDiff (DiffPayload.completions current.locations)])

/-! ## Bookmark actions (modelled from the spec)

The action creators `bookmark`/`unbookmark` of
`src/ui/browser/actions/main-actions.js` and the profile reducer they feed are
not included in the sources; only their unit test is.  They are modelled from
the spec: a bookmark adds the URL to the profile's bookmark set and issues a
`POST {base}/stars/{url-encoded location}` with body `{ session }`; an
unbookmark removes the URL and issues the matching `DELETE`; the session id is
the `sessionId` of the page identified by `pageId`. -/

/-- Embedding of `encodeURIComponent`: every character other than the RFC 2396 unreserved
marks and alphanumerics is percent-encoded byte-by-byte (UTF-8). -/
def uriUnreserved (c : Char) : Bool :=
  c.isAlphanum || c = '-' || c = '_' || c = '.' || c = '!' || c = '~'
    || c = '*' || c = Char.ofNat 39 || c = '(' || c = ')'

def hexDigit (n : Nat) : Char :=
  if n < 10 then Char.ofNat (48 + n) else Char.ofNat (55 + n)

def percentByte (b : UInt8) : String :=
  String.mk ['%', hexDigit (b.toNat / 16), hexDigit (b.toNat % 16)]

def encodeURIComponent (s : String) : String :=
  String.join (s.data.map (fun c =>
    if uriUnreserved c then String.mk [c]
    else String.join ((String.mk [c]).toUTF8.toList.map percentByte)))

/-- A request to the remote bookmark service: method, target URL, and the
`session` field of the JSON body. -/
structure NetCall where
  method : String
  url : String
  session : Int
deriving DecidableEq

/-- Modelled from the spec: dispatching `Bookmark(pageId, url, title)` adds
`url` to the bookmark set and issues one POST star call carrying the session
id of page `pageId` (looked up in the window's page table). -/
def bookmarkAction (ps : ProfileState) (base : String)
    (pageSessions : List (Nat × Int)) (pageId : Nat) (url : String)
    (_title : String) : ProfileState × List NetCall :=
  let sessionId := (pageSessions.lookup pageId).getD 0
  ({ ps with bookmarks := insert url ps.bookmarks },
   [{ method := "POST", url := base ++ "/stars/" ++ encodeURIComponent url
      session := sessionId }])

/-- Modelled from the spec: dispatching `Unbookmark(pageId, url)` removes
`url` from the bookmark set and issues one DELETE star call carrying the
session id of page `pageId`. -/
def unbookmarkAction (ps : ProfileState) (base : String)
    (pageSessions : List (Nat × Int)) (pageId : Nat) (url : String) :
    ProfileState × List NetCall :=
  let sessionId := (pageSessions.lookup pageId).getD 0
  ({ ps with bookmarks := ps.bookmarks.erase url },
   [{ method := "DELETE", url := base ++ "/stars/" ++ encodeURIComponent url
      session := sessionId }])

/-! ## Identity page order and a characterization of `closeTab` -/

/-- The identity display order on `n` pages: `[0, 1, ..., n-1]`. -/
def idOrder (n : Nat) : List Int := (List.range n).map (fun k : Nat => (k : Int))

theorem mem_idOrder {n : Nat} {x : Int} : x ∈ idOrder n ↔ 0 ≤ x ∧ x < (n : Int) := by
  constructor
  · intro hx
    rcases List.mem_map.mp hx with ⟨k, hk, rfl⟩
    have := List.mem_range.mp hk
    omega
  · intro hx
    refine List.mem_map.mpr ⟨x.toNat, List.mem_range.mpr (by omega), by omega⟩

theorem nodup_idOrder {n : Nat} : (idOrder n).Nodup :=
  (List.nodup_range n).map (fun a b h => by omega)

theorem findIdx_range'_map :
    ∀ (n a : Nat) (i : Int), (a : Int) ≤ i → i < (a : Int) + n →
      ((List.range' a n).map (fun k : Nat => (k : Int))).findIdx (fun x => x = i)
        = i.toNat - a := by
  intro n
  induction n with
  | zero => intro a i h1 h2; omega
  | succ n ih =>
    intro a i h1 h2
    rw [List.range'_succ, List.map_cons, List.findIdx_cons]
    by_cases h : (a : Int) = i
    · rw [show (decide ((a : Int) = i)) = true by simp [h]]
      simp only [cond_true]
      omega
    · rw [show (decide ((a : Int) = i)) = false by simp [h]]
      simp only [cond_false]
      rw [ih (a + 1) i (by omega) (by omega)]
      omega

theorem findIdx_idOrder {n : Nat} {i : Int} (h0 : 0 ≤ i) (h1 : i < (n : Int)) :
    (idOrder n).findIdx (fun x => x = i) = i.toNat := by
  have h := findIdx_range'_map n 0 i (by omega) (by omega)
  simp only [idOrder, List.range_eq_range']
  omega

theorem map_dec :
    ∀ (n b : Nat) (i : Int), 0 ≤ i → i < (b : Int) + 1 →
      ((List.range' (b + 1) n).map (fun k : Nat => (k : Int))).map
          (fun x => if i < x then x - 1 else x)
        = (List.range' b n).map (fun k : Nat => (k : Int)) := by
  intro n
  induction n with
  | zero => intro b i h0 h1; rfl
  | succ n ih =>
    intro b i h0 h1
    rw [List.range'_succ, List.range'_succ, List.map_cons, List.map_cons,
      List.map_cons]
    refine congrArg₂ _ ?_ ?_
    · have hlt : i < ((b + 1 : Nat) : Int) := by omega
      rw [if_pos hlt]
      omega
    · exact ih (b + 1) i h0 (by omega)

theorem erase_map_range' :
    ∀ (n a : Nat) (i : Int), (a : Int) ≤ i → i < (a : Int) + n → 0 ≤ i →
      (((List.range' a n).map (fun k : Nat => (k : Int))).erase i).map
          (fun x => if i < x then x - 1 else x)
        = (List.range' a (n - 1)).map (fun k : Nat => (k : Int)) := by
  intro n
  induction n with
  | zero => intro a i h1 h2; omega
  | succ n ih =>
    intro a i h1 h2 h0
    rw [List.range'_succ, List.map_cons, List.erase_cons]
    by_cases h : (a : Int) = i
    · rw [if_pos (by simp [h])]
      simpa [Nat.succ_sub_one] using map_dec n a i h0 (by omega)
    · rw [if_neg (by simp [h])]
      rw [List.map_cons]
      have hn1 : 1 ≤ n := by omega
      have ht := ih (a + 1) i (by omega) (by omega) h0
      rw [ht]
      have hrec : List.range' a (n + 1 - 1) = a :: List.range' (a + 1) (n - 1) := by
        have hsplit : n = (n - 1) + 1 := by omega
        rw [Nat.succ_sub_one]
        conv_lhs => rw [hsplit]
        rw [List.range'_succ]
      rw [hrec, List.map_cons]
      refine congrArg₂ _ ?_ rfl
      rw [if_neg (by omega)]

theorem eraseIdx_findIdx_eq_erase (l : List Int) (a : Int) :
    l.eraseIdx (l.findIdx (fun x => x = a)) = l.erase a := by
  induction l with
  | nil => rfl
  | cons x xs ih =>
    rw [List.findIdx_cons, List.erase_cons]
    by_cases h : x = a
    · rw [show (decide (x = a)) = true by simp [h], if_pos (by simp [h])]
      rfl
    · rw [show (decide (x = a)) = false by simp [h], if_neg (by simp [h])]
      simp only [cond_false, List.eraseIdx_cons_succ]
      rw [ih]

/-- Characterization of `closeTab` on a state whose page order contains the
closed index: the page is removed, the order entry is removed with the larger
entries renumbered down, and the selection is recomputed from the closed
page's display position. -/
theorem closeTab_eq (s : State) (i : Int) (hn : s.pages.length ≠ 1)
    (hmem : i ∈ s.pageOrder) (hnd : s.pageOrder.Nodup) (hi0 : 0 ≤ i) :
    closeTab s i =
      { pages := s.pages.eraseIdx i.toNat
        pageOrder := (s.pageOrder.erase i).map (fun x => if i < x then x - 1 else x)
        currentPageIndex :=
          if s.currentPageIndex = i then
            if 0 < ((s.pageOrder.findIdx (fun x => x = i) : Nat) : Int) then
              ((s.pageOrder.findIdx (fun x => x = i) : Nat) : Int) - 1
            else ((s.pageOrder.findIdx (fun x => x = i) : Nat) : Int)
          else if i < s.currentPageIndex then s.currentPageIndex - 1
          else s.currentPageIndex } := by
  have hk : s.pageOrder.findIdx (fun x => x = i) < s.pageOrder.length :=
    List.findIdx_lt_length.mpr ⟨i, hmem, by simp⟩
  have hidx : jsIndexOf s.pageOrder i
      = ((s.pageOrder.findIdx (fun x => x = i) : Nat) : Int) := by
    simp [jsIndexOf, hk]
  have hpages : jsDelete s.pages i = s.pages.eraseIdx i.toNat := by
    simp only [jsDelete]
    rw [if_neg (by omega), if_neg (by omega)]
  have horder : jsDelete s.pageOrder
        ((s.pageOrder.findIdx (fun x => x = i) : Nat) : Int)
      = s.pageOrder.erase i := by
    simp only [jsDelete]
    rw [if_neg (by omega), if_neg (by omega), Int.toNat_natCast]
    exact eraseIdx_findIdx_eq_erase s.pageOrder i
  have hmap : (s.pageOrder.erase i).map (fun x => if x < i then x else x - 1)
      = (s.pageOrder.erase i).map (fun x => if i < x then x - 1 else x) := by
    refine List.map_congr_left ?_
    intro x hx
    have hxi : x ≠ i := ((List.Nodup.mem_erase_iff hnd).mp hx).1
    rcases lt_trichotomy x i with h | h | h
    · rw [if_pos h, if_neg (by omega)]
    · exact absurd h hxi
    · rw [if_neg (by omega), if_pos h]
  rw [closeTab, if_neg hn]
  simp only [hidx, hpages, horder, hmap]

/-! ## Claims about the tab reducer -/

/-- States reachable from the initial state by `CreateTab` and `CloseTab`
actions whose `pageIndex` arguments are in range. -/
inductive CCReach : State → Prop where
  | init : CCReach initialState
  | create (s : State) (location : Option String) :
      CCReach s → CCReach (createTab s location)
  | close (s : State) (i : Int) :
      CCReach s → 0 ≤ i → i < (s.pages.length : Int) → CCReach (closeTab s i)

theorem ccreach_inv {s : State} (h : CCReach s) :
    s.pageOrder = idOrder s.pages.length ∧
    0 ≤ s.currentPageIndex ∧ s.currentPageIndex < (s.pages.length : Int) := by
  induction h with
  | init => exact ⟨rfl, by decide, by decide⟩
  | create s loc hs ih =>
    obtain ⟨ho, hc0, hc1⟩ := ih
    refine ⟨?_, ?_, ?_⟩
    · simp only [createTab, List.length_append, List.length_cons,
        List.length_nil, ho, idOrder, List.range_succ, List.map_append,
        List.map_cons, List.map_nil]
    · simp only [createTab]
      omega
    · simp only [createTab, List.length_append, List.length_cons, List.length_nil]
      omega
  | close s i hs h0 h1 ih =>
    obtain ⟨ho, hc0, hc1⟩ := ih
    by_cases hone : s.pages.length = 1
    · have hres : closeTab s i = initialState := by simp [closeTab, hone]
      rw [hres]
      exact ⟨rfl, by decide, by decide⟩
    · have hmem : i ∈ s.pageOrder := by
        rw [ho]; exact mem_idOrder.mpr ⟨h0, h1⟩
      have hnd : s.pageOrder.Nodup := by
        rw [ho]; exact nodup_idOrder
      have hC := closeTab_eq s i hone hmem hnd h0
      rw [hC]
      have hlen : (s.pages.eraseIdx i.toNat).length = s.pages.length - 1 := by
        rw [List.length_eraseIdx, if_pos (by omega)]
      have hk : s.pageOrder.findIdx (fun x => x = i) = i.toNat := by
        rw [ho]; exact findIdx_idOrder h0 h1
      refine ⟨?_, ?_, ?_⟩
      · show (s.pageOrder.erase i).map _ = idOrder (s.pages.eraseIdx i.toNat).length
        rw [hlen, ho]
        have hgoal := erase_map_range' s.pages.length 0 i (by omega) (by omega) h0
        simpa [idOrder, List.range_eq_range'] using hgoal
      · show (0 : Int) ≤ _
        simp only [hk]
        split_ifs <;> omega
      · show _ < ((s.pages.eraseIdx i.toNat).length : Int)
        simp only [hk, hlen]
        split_ifs <;> omega

/-- C1: for every sequence of CreateTab and CloseTab actions with in-range
`pageIndex` arguments, starting from the initial state, `pageOrder` is a
permutation of the indices of the live pages and `currentPageIndex` addresses
a live page. -/
theorem claim_C1_create_close_invariant (s : State) (h : CCReach s) :
    s.pageOrder.Perm (idOrder s.pages.length) ∧
    0 ≤ s.currentPageIndex ∧ s.currentPageIndex < (s.pages.length : Int) := by
  obtain ⟨ho, hc⟩ := ccreach_inv h
  exact ⟨ho ▸ List.Perm.refl _, hc⟩

theorem claim_C1_create_close_invariant_witness :
    CCReach (closeTab (createTab initialState (some "http://a.com")) 0) ∧
    ((closeTab (createTab initialState (some "http://a.com")) 0).pageOrder.Perm
        (idOrder (closeTab (createTab initialState (some "http://a.com")) 0).pages.length) ∧
      0 ≤ (closeTab (createTab initialState (some "http://a.com")) 0).currentPageIndex ∧
      (closeTab (createTab initialState (some "http://a.com")) 0).currentPageIndex
        < ((closeTab (createTab initialState (some "http://a.com")) 0).pages.length : Int)) := by
  have hr : CCReach (closeTab (createTab initialState (some "http://a.com")) 0) :=
    CCReach.close _ 0 (CCReach.create _ (some "http://a.com") CCReach.init)
      (by decide) (by decide)
  exact ⟨hr, claim_C1_create_close_invariant _ hr⟩

/-- C2 (amended): for every `TabState` satisfying the page-order permutation
invariant, with more than one page and an in-range `pageIndex`, `CloseTab`
removes the page, removes the order entry and renumbers larger entries down;
if the closed page was selected the new `currentPageIndex` is set to one less
than the closed page's display position (or that position, `0`, when the
closed page was first in display order) — a display position, not the index
of the display-predecessor page; otherwise `currentPageIndex` is decremented
exactly when it was numerically greater than the removed index. -/
theorem claim_C2_closeTab (s : State) (i : Int)
    (hperm : s.pageOrder.Perm (idOrder s.pages.length))
    (hlen : 1 < s.pages.length) (hi0 : 0 ≤ i)
    (hi1 : i < (s.pages.length : Int)) :
    (closeTab s i).pages = s.pages.eraseIdx i.toNat ∧
    (closeTab s i).pageOrder
      = (s.pageOrder.erase i).map (fun x => if i < x then x - 1 else x) ∧
    (closeTab s i).currentPageIndex =
      (if s.currentPageIndex = i then
        if 0 < ((s.pageOrder.findIdx (fun x => x = i) : Nat) : Int) then
          ((s.pageOrder.findIdx (fun x => x = i) : Nat) : Int) - 1
        else ((s.pageOrder.findIdx (fun x => x = i) : Nat) : Int)
       else if i < s.currentPageIndex then s.currentPageIndex - 1
       else s.currentPageIndex) := by
  have hmem : i ∈ s.pageOrder := hperm.mem_iff.mpr (mem_idOrder.mpr ⟨hi0, hi1⟩)
  have hnd : s.pageOrder.Nodup := hperm.nodup_iff.mpr nodup_idOrder
  rw [closeTab_eq s i (by omega) hmem hnd hi0]
  exact ⟨rfl, rfl, rfl⟩

/-- The spec scenario state: `CreateTab("http://a.com")` dispatched on the
initial single-home-page state. -/
def c2state : State := createTab initialState (some "http://a.com")

theorem claim_C2_closeTab_witness :
    (c2state.pageOrder.Perm (idOrder c2state.pages.length) ∧
      1 < c2state.pages.length) ∧
    ((closeTab c2state 0).pages = c2state.pages.eraseIdx (0 : Int).toNat ∧
      (closeTab c2state 0).pageOrder
        = (c2state.pageOrder.erase 0).map (fun x => if 0 < x then x - 1 else x) ∧
      (closeTab c2state 0).currentPageIndex =
        (if c2state.currentPageIndex = 0 then
          if 0 < ((c2state.pageOrder.findIdx (fun x => x = 0) : Nat) : Int) then
            ((c2state.pageOrder.findIdx (fun x => x = 0) : Nat) : Int) - 1
          else ((c2state.pageOrder.findIdx (fun x => x = 0) : Nat) : Int)
         else if 0 < c2state.currentPageIndex then c2state.currentPageIndex - 1
         else c2state.currentPageIndex)) :=
  ⟨⟨by decide, by decide⟩,
    claim_C2_closeTab c2state 0 (by decide) (by decide) (by decide) (by decide)⟩

/-- A valid three-page state whose display order is not the storage order:
display order is C, A, B and the selected page is A (index 0). -/
def c2CounterState : State :=
  { pages := [Val.ofPage (Page.new (Val.str "A")),
              Val.ofPage (Page.new (Val.str "B")),
              Val.ofPage (Page.new (Val.str "C"))]
    pageOrder := [2, 0, 1]
    currentPageIndex := 0 }

/-- Extract the `location` of a page value (for stating counterexamples). -/
def Val.pageLocation : Val → Val
  | Val.ofPage p => p.location
  | _ => Val.undef

/-- C2 is refuted on `c2CounterState`: the selected page A sits at display
position 1, so the page immediately before it in display order is C (storage
index 2, index 1 after the close).  The code instead sets
`currentPageIndex := orderIndex - 1 = 0`, which addresses page B. -/
theorem claim_C2_counterexample :
    c2CounterState.pageOrder.Perm (idOrder c2CounterState.pages.length) ∧
    c2CounterState.currentPageIndex = 0 ∧
    jsIndexOf c2CounterState.pageOrder 0 = 1 ∧
    Val.pageLocation
        (jsGetD c2CounterState.pages (jsGetD c2CounterState.pageOrder 0 (-1))
          Val.undef)
      = Val.str "C" ∧
    (closeTab c2CounterState 0).currentPageIndex = 0 ∧
    Val.pageLocation
        (jsGetD (closeTab c2CounterState 0).pages
          (closeTab c2CounterState 0).currentPageIndex Val.undef)
      = Val.str "B" ∧
    Val.str "B" ≠ Val.str "C" := by
  refine ⟨by decide, rfl, by decide, rfl, rfl, rfl, ?_⟩
  intro h
  injection h with h1
  exact absurd h1 (by decide)

/-- C3: `duplicateTab` on the initial state.  The source passes the whole
`Page` record as the new page's `location`, so the clone's location is not
the cloned page's location string. -/
theorem claim_C3_duplicateTab_bug :
    (duplicateTab initialState 0).pages
      = [Val.ofPage (Page.new (Val.str HOME_PAGE)),
         Val.ofPage (Page.new (Val.ofPage (Page.new (Val.str HOME_PAGE))))] ∧
    (Page.new (Val.ofPage (Page.new (Val.str HOME_PAGE)))).location
      ≠ (Page.new (Val.str HOME_PAGE)).location := by
  refine ⟨rfl, ?_⟩
  intro h
  exact Val.noConfusion h

/-- C7: closing a tab in any single-page state resets to the initial state,
whatever the `pageIndex` argument. -/
theorem claim_C7_closeTab_single (s : State) (i : Int)
    (h : s.pages.length = 1) : closeTab s i = initialState := by
  simp [closeTab, h]

theorem claim_C7_closeTab_single_witness :
    initialState.pages.length = 1 ∧ closeTab initialState 5 = initialState :=
  ⟨rfl, claim_C7_closeTab_single initialState 5 rfl⟩

/-- C10: an action whose type is not one of the eight recognized action types
falls through the reducer's `default` branch and returns the input state
itself. -/
theorem claim_C10_unknown_action (s : State) (t : String) :
    basic s (Action.unknown t) = Except.ok s := rfl

/-! ## SetPageDetails: frame property (C8) -/

theorem jsSetInPages_inrange (l : List Val) (idx : Int) (k : String) (v : Val)
    (p : Page) (h0 : 0 ≤ idx) (h1 : idx < (l.length : Int))
    (hp : l[idx.toNat]? = some (Val.ofPage p)) :
    jsSetInPages l idx k v
      = Except.ok (l.set idx.toNat (Val.ofPage (p.setField k v))) := by
  have hj : ¬ idx < 0 := by omega
  have hgetD : l.getD idx.toNat Val.undef = Val.ofPage p := by
    rw [List.getD_eq_getElem?_getD, hp]
    rfl
  simp only [jsSetInPages, if_neg hj, if_pos h0, if_pos h1, hgetD,
    updatePageEntry]

theorem setPageDetails_go (details : List (String × Val)) :
    ∀ (st : State) (idx : Int) (p : Page), 0 ≤ idx →
      idx < (st.pages.length : Int) →
      st.pages[idx.toNat]? = some (Val.ofPage p) →
      ∃ s',
        details.foldlM
          (fun st2 kv =>
            match jsSetInPages st2.pages idx kv.1 kv.2 with
            | Except.ok pages => Except.ok { st2 with pages := pages }
            | Except.error e => Except.error e) st = Except.ok s' ∧
        s'.pageOrder = st.pageOrder ∧
        s'.currentPageIndex = st.currentPageIndex ∧
        s'.pages.length = st.pages.length ∧
        s'.pages[idx.toNat]?
          = some (Val.ofPage
              (details.foldl (fun q kv => q.setField kv.1 kv.2) p)) ∧
        ∀ j : Nat, j ≠ idx.toNat → s'.pages[j]? = st.pages[j]? := by
  induction details with
  | nil =>
    intro st idx p h0 h1 hp
    exact ⟨st, rfl, rfl, rfl, rfl, hp, fun j _ => rfl⟩
  | cons kv rest ih =>
    intro st idx p h0 h1 hp
    have hstep := jsSetInPages_inrange st.pages idx kv.1 kv.2 p h0 h1 hp
    have hlt : idx.toNat < st.pages.length := by omega
    have hlen1 : (st.pages.set idx.toNat
        (Val.ofPage (p.setField kv.1 kv.2))).length = st.pages.length :=
      List.length_set st.pages _ _
    have hp1 : (st.pages.set idx.toNat
          (Val.ofPage (p.setField kv.1 kv.2)))[idx.toNat]?
        = some (Val.ofPage (p.setField kv.1 kv.2)) := by
      rw [List.getElem?_set, if_pos rfl, if_pos hlt]
    obtain ⟨s', hrun, hord, hcur, hlen, hsel, hframe⟩ :=
      ih { st with
            pages := st.pages.set idx.toNat (Val.ofPage (p.setField kv.1 kv.2)) }
        idx (p.setField kv.1 kv.2) h0
        (by simpa only [hlen1] using h1) hp1
    refine ⟨s', ?_, hord, hcur, ?_, hsel, ?_⟩
    · simp only [List.foldlM_cons, hstep]
      exact hrun
    · rw [hlen]
      exact hlen1
    · intro j hj
      rw [hframe j hj, List.getElem?_set, if_neg (fun he => hj he.symm)]

/-- C8: `SetPageDetails` with `pageIndex = -1` applies every key/value pair
of the details, in order, to the currently-selected page only; every other
page, `pageOrder`, and `currentPageIndex` are unchanged. -/
theorem claim_C8_setPageDetails_current (s : State)
    (details : List (String × Val)) (p : Page)
    (h0 : 0 ≤ s.currentPageIndex)
    (h1 : s.currentPageIndex < (s.pages.length : Int))
    (hp : s.pages[s.currentPageIndex.toNat]? = some (Val.ofPage p)) :
    ∃ s', setPageDetails s (-1) details = Except.ok s' ∧
      s'.pageOrder = s.pageOrder ∧
      s'.currentPageIndex = s.currentPageIndex ∧
      s'.pages.length = s.pages.length ∧
      s'.pages[s.currentPageIndex.toNat]?
        = some (Val.ofPage
            (details.foldl (fun q kv => q.setField kv.1 kv.2) p)) ∧
      ∀ j : Nat, j ≠ s.currentPageIndex.toNat →
        s'.pages[j]? = s.pages[j]? := by
  have hgo := setPageDetails_go details s s.currentPageIndex p h0 h1 hp
  simpa only [setPageDetails, if_pos rfl] using hgo

theorem claim_C8_setPageDetails_current_witness :
    (0 : Int) ≤ initialState.currentPageIndex ∧
    initialState.currentPageIndex < (initialState.pages.length : Int) ∧
    initialState.pages[initialState.currentPageIndex.toNat]?
      = some (Val.ofPage (Page.new (Val.str HOME_PAGE))) ∧
    (∃ s', setPageDetails initialState (-1) [("title", Val.str "t")]
        = Except.ok s' ∧
      s'.pageOrder = initialState.pageOrder ∧
      s'.currentPageIndex = initialState.currentPageIndex ∧
      s'.pages.length = initialState.pages.length ∧
      s'.pages[initialState.currentPageIndex.toNat]?
        = some (Val.ofPage
            ([("title", Val.str "t")].foldl (fun q kv => q.setField kv.1 kv.2)
              (Page.new (Val.str HOME_PAGE)))) ∧
      ∀ j : Nat, j ≠ initialState.currentPageIndex.toNat →
        s'.pages[j]? = initialState.pages[j]?) :=
  ⟨by decide, by decide, rfl,
    claim_C8_setPageDetails_current initialState [("title", Val.str "t")]
      (Page.new (Val.str HOME_PAGE)) (by decide) (by decide) rfl⟩

/-! ## Totality of the reducer (C9) -/

/-- Entries on which a `setIn` step cannot throw: unset slots, pages, and
plain maps (everything except raw string/number entries, which are not data
structures). -/
def Val.settable : Val → Bool
  | Val.undef => true
  | Val.ofPage _ => true
  | Val.obj _ => true
  | _ => false

/-- Entries that are `Page` records, as the `TabState` data model requires. -/
def Val.isPage : Val → Bool
  | Val.ofPage _ => true
  | _ => false

theorem updatePageEntry_ok (v : Val) (h : Val.settable v = true) (k : String)
    (value : Val) :
    ∃ w, updatePageEntry v k value = Except.ok w ∧ Val.settable w = true := by
  cases v with
  | undef => exact ⟨_, rfl, rfl⟩
  | ofPage p => exact ⟨_, rfl, rfl⟩
  | obj m => exact ⟨_, rfl, rfl⟩
  | str s => exact absurd h (by simp [Val.settable])
  | num n => exact absurd h (by simp [Val.settable])

theorem jsSetInPages_ok (l : List Val) (h : ∀ v ∈ l, Val.settable v = true)
    (i : Int) (k : String) (value : Val) :
    ∃ l', jsSetInPages l i k value = Except.ok l' ∧
      ∀ v ∈ l', Val.settable v = true := by
  by_cases hneg : (if i < 0 then i + (l.length : Int) else i) < 0
  · refine ⟨Val.obj [(k, value)] ::
        (List.replicate
          ((-(if i < 0 then i + (l.length : Int) else i)).toNat - 1) Val.undef
          ++ l), ?_, ?_⟩
    · simp only [jsSetInPages]
      rw [if_neg (by omega)]
    · intro v hv
      rcases List.mem_cons.mp hv with hv | hv
      · rw [hv]; rfl
      · rcases List.mem_append.mp hv with hv | hv
        · rw [List.eq_of_mem_replicate hv]; rfl
        · exact h v hv
  · by_cases hlt : (if i < 0 then i + (l.length : Int) else i) < (l.length : Int)
    · set j := (if i < 0 then i + (l.length : Int) else i) with hj
      have hmem : l.getD j.toNat Val.undef ∈ l := by
        rw [List.getD_eq_getElem?_getD]
        have hjl : j.toNat < l.length := by omega
        rw [List.getElem?_eq_getElem hjl]
        exact List.getElem_mem hjl
      obtain ⟨w, hw, hws⟩ :=
        updatePageEntry_ok (l.getD j.toNat Val.undef) (h _ hmem) k value
      refine ⟨l.set j.toNat w, ?_, ?_⟩
      · simp only [jsSetInPages, ← hj]
        rw [if_pos (by omega), if_pos hlt, hw]
      · intro v hv
        rcases List.mem_or_eq_of_mem_set hv with hv | hv
        · exact h v hv
        · rw [hv]; exact hws
    · refine ⟨l ++ List.replicate
          ((if i < 0 then i + (l.length : Int) else i).toNat - l.length)
          Val.undef ++ [Val.obj [(k, value)]], ?_, ?_⟩
      · simp only [jsSetInPages]
        rw [if_pos (by omega), if_neg hlt]
      · intro v hv
        rcases List.mem_append.mp hv with hv | hv
        · rcases List.mem_append.mp hv with hv | hv
          · exact h v hv
          · rw [List.eq_of_mem_replicate hv]; rfl
        · rw [List.mem_singleton.mp hv]; rfl

theorem setPageDetails_total (details : List (String × Val)) :
    ∀ (st : State) (idx : Int), (∀ v ∈ st.pages, Val.settable v = true) →
      ∃ s',
        details.foldlM
          (fun st2 kv =>
            match jsSetInPages st2.pages idx kv.1 kv.2 with
            | Except.ok pages => Except.ok { st2 with pages := pages }
            | Except.error e => Except.error e) st = Except.ok s' := by
  induction details with
  | nil => intro st idx _; exact ⟨st, rfl⟩
  | cons kv rest ih =>
    intro st idx h
    obtain ⟨l', hl', hset⟩ := jsSetInPages_ok st.pages h idx kv.1 kv.2
    obtain ⟨s', hs'⟩ := ih { st with pages := l' } idx hset
    refine ⟨s', ?_⟩
    simp only [List.foldlM_cons, hl']
    exact hs'

/-- C9: on any `TabState` (all page entries are `Page` records), the reducer
never reaches the throwing path of the embedded Immutable.js primitives: for
every action of the vocabulary, including malformed parameters such as an
out-of-range `pageIndex`, it totally returns some state. -/
theorem claim_C9_reducer_total (s : State)
    (h : s.pages.all Val.isPage = true) (a : Action) :
    ∃ s', basic s a = Except.ok s' := by
  have hset : ∀ v ∈ s.pages, Val.settable v = true := by
    intro v hv
    have := List.all_eq_true.mp h v hv
    cases v with
    | ofPage p => rfl
    | undef => rfl
    | obj m => rfl
    | str t => exact absurd this (by simp [Val.isPage])
    | num n => exact absurd this (by simp [Val.isPage])
  cases a with
  | createTab location => exact ⟨_, rfl⟩
  | duplicateTab pageIndex => exact ⟨_, rfl⟩
  | attachTab page => exact ⟨_, rfl⟩
  | closeTab pageIndex => exact ⟨_, rfl⟩
  | setLocation userTyped =>
    obtain ⟨l', hl', _⟩ :=
      jsSetInPages_ok s.pages hset s.currentPageIndex "userTyped" userTyped
    refine ⟨{ s with pages := l' }, ?_⟩
    simp only [basic, setLocation, hl']
  | setPageDetails pageIndex details =>
    obtain ⟨s', hs'⟩ := setPageDetails_total details s
      (if pageIndex = -1 then s.currentPageIndex else pageIndex) hset
    refine ⟨s', ?_⟩
    simpa only [basic, setPageDetails] using hs'
  | setCurrentTab pageIndex => exact ⟨_, rfl⟩
  | setPageOrder pageOrder => exact ⟨_, rfl⟩
  | unknown t => exact ⟨_, rfl⟩

theorem claim_C9_reducer_total_witness :
    initialState.pages.all Val.isPage = true ∧
    ∃ s', basic initialState
        (Action.setPageDetails 99 [("title", Val.str "t")]) = Except.ok s' :=
  ⟨rfl, claim_C9_reducer_total initialState rfl
    (Action.setPageDetails 99 [("title", Val.str "t")])⟩

/-! ## Claims about the diff engine and the bookmark actions -/

/-- C4: when only the bookmarks changed (empty before, one URL after), one
run of the diff engine emits exactly one `profile-diff` replication event,
carrying the bookmarks projection; none is emitted for the unchanged
locations (or any other) field. -/
theorem claim_C4_bookmark_diff (prev next : ProfileState)
    (hw : next.browserWindows = prev.browserWindows)
    (hr : next.recentBookmarks = prev.recentBookmarks)
    (hb0 : prev.bookmarks = ∅)
    (hb1 : next.bookmarks = {"http://a.com"})
    (hl : next.locations = prev.locations) :
    (sendDiffsToWindows (some prev) next).filter Effect.isProfileDiff
      = [Effect.profileDiff (DiffPayload.bookmarks {"http://a.com"})] := by
  have hbne : ¬ ({"http://a.com"} : Finset String) = prev.bookmarks := by
    rw [hb0]
    exact Finset.singleton_ne_empty _
  simp [sendDiffsToWindows, hw, hr, hl, hb1, hbne, Effect.isProfileDiff]

def c4prev : ProfileState :=
  { browserWindows := ∅, recentBookmarks := [], bookmarks := ∅, locations := [] }

def c4next : ProfileState :=
  { c4prev with bookmarks := {"http://a.com"} }

theorem claim_C4_bookmark_diff_witness :
    (c4next.browserWindows = c4prev.browserWindows ∧
      c4next.recentBookmarks = c4prev.recentBookmarks ∧
      c4prev.bookmarks = ∅ ∧
      c4next.bookmarks = {"http://a.com"} ∧
      c4next.locations = c4prev.locations) ∧
    (sendDiffsToWindows (some c4prev) c4next).filter Effect.isProfileDiff
      = [Effect.profileDiff (DiffPayload.bookmarks {"http://a.com"})] :=
  ⟨⟨rfl, rfl, rfl, rfl, rfl⟩,
    claim_C4_bookmark_diff c4prev c4next rfl rfl rfl rfl rfl⟩

/-- A profile state in which the URL is already bookmarked. -/
def c5state : ProfileState :=
  { browserWindows := ∅, recentBookmarks := []
    bookmarks := {"http://moz1.com"}, locations := [] }

/-- C5 is refuted when the URL was already bookmarked before the round trip:
Bookmark then Unbookmark leaves it unbookmarked, so membership does not equal
its value before either dispatch. -/
theorem claim_C5_counterexample :
    "http://moz1.com" ∈ c5state.bookmarks ∧
    "http://moz1.com" ∉
      ((unbookmarkAction
          ((bookmarkAction c5state "base" [(0, 1)] 0 "http://moz1.com"
            "moz1").1)
          "base" [(0, 1)] 0 "http://moz1.com").1).bookmarks := by
  exact ⟨by decide, by decide⟩

/-- An empty profile state (no bookmarks). -/
def c5empty : ProfileState :=
  { browserWindows := ∅, recentBookmarks := [], bookmarks := ∅, locations := [] }

/-- A second empty profile state, for the network-call claim. -/
def c6ps : ProfileState :=
  { browserWindows := ∅, recentBookmarks := [], bookmarks := ∅, locations := [] }

/-- C5 (amended): provided the URL was not already bookmarked, dispatching
Bookmark then Unbookmark restores bookmark-set membership for the URL to its
value before either dispatch (both false). -/
theorem claim_C5_bookmark_roundtrip (ps : ProfileState) (base : String)
    (sessions : List (Nat × Int)) (pid : Nat) (url title : String)
    (h : url ∉ ps.bookmarks) :
    (url ∈ ((unbookmarkAction ((bookmarkAction ps base sessions pid url
        title).1) base sessions pid url).1).bookmarks
      ↔ url ∈ ps.bookmarks) := by
  simp [bookmarkAction, unbookmarkAction, h]

theorem claim_C5_bookmark_roundtrip_witness :
    "http://moz1.com" ∉ c5empty.bookmarks ∧
    ("http://moz1.com" ∈ ((unbookmarkAction ((bookmarkAction c5empty
        "base" [] 0 "http://moz1.com" "moz1").1) "base" [] 0
        "http://moz1.com").1).bookmarks
      ↔ "http://moz1.com" ∈ c5empty.bookmarks) :=
  ⟨by decide,
    claim_C5_bookmark_roundtrip c5empty "base" [] 0 "http://moz1.com"
      "moz1" (by decide)⟩

/-- C6: Bookmark issues no DELETE-style call; Unbookmark issues exactly one,
targeting `{base}/stars/{url-encoded url}` with body `{ session }` where the
session is that of page `pageId`. -/
theorem claim_C6_unbookmark_delete (ps : ProfileState) (base : String)
    (sessions : List (Nat × Int)) (pid : Nat) (url title : String) (sid : Int)
    (h : sessions.lookup pid = some sid) :
    ((bookmarkAction ps base sessions pid url title).2.filter
        (fun c => c.method = "DELETE") = []) ∧
    ((unbookmarkAction ps base sessions pid url).2.filter
        (fun c => c.method = "DELETE")
      = [{ method := "DELETE"
           url := base ++ "/stars/" ++ encodeURIComponent url
           session := sid }]) := by
  constructor
  · simp [bookmarkAction]
  · simp [unbookmarkAction, h]

theorem claim_C6_unbookmark_delete_witness :
    ([((0 : Nat), (1 : Int))].lookup 0 = some 1) ∧
    (((bookmarkAction c6ps "https://example.org" [(0, 1)] 0 "http://moz1.com"
        "moz1").2.filter (fun c => c.method = "DELETE") = []) ∧
      ((unbookmarkAction c6ps "https://example.org" [(0, 1)] 0
          "http://moz1.com").2.filter (fun c => c.method = "DELETE")
        = [{ method := "DELETE"
             url := "https://example.org" ++ "/stars/"
               ++ encodeURIComponent "http://moz1.com"
             session := 1 }])) :=
  ⟨rfl,
    claim_C6_unbookmark_delete c6ps "https://example.org" [(0, 1)] 0
      "http://moz1.com" "moz1" 1 rfl⟩

end Tofino
